import Mathlib

/-!
Verification of the literate-code runner `run.js` of the
javascript-by-example repository.

The repository ships two variants of the runner:
* `main1` — the basic variant: extract the fenced code from
  `<name>.md`, write it to `<name>.md.js`, run `babel-node` on it, and
  delete the generated file.  The promise chain has no `catch`.
* `main2` — the variant with the `flow` type check: after writing, it
  runs `flow` and then `babel-node`, deletes the generated file in a
  final `then`, and has a `catch` handler that also deletes it.

The embedding is an explicit-state translation of the promise chains:
each `.then` step runs exactly when the previous step fulfilled; a
thrown exception from `execSync` or `fs.unlinkSync` rejects the chain;
a `catch` handler runs on rejection and its own throw leaves the chain
rejected.  The external collaborators (the `literatejs` extractor and
writer, the `flow` checker, the `babel-node` executor, the filesystem)
are parameters in an `Env`, and the filesystem is a map from paths to
file contents.
-/

/-- A filesystem: a map from paths to contents; `none` means the file
does not exist. -/
def FS : Type := String → Option String

/-- Write or delete one path of a filesystem. -/
def FS.update (fs : FS) (p : String) (v : Option String) : FS :=
  fun q => if q = p then v else fs q

/-- Behaviour of the external collaborators during one invocation.
`extractCode` is `literatejs.extract`'s pure core: what it returns on a
given document content (`none` = the document is malformed / has no
code).  `writeOk` is whether `literatejs.write` succeeds, `checkOk c`
whether `flow` exits 0 on a generated file with content `c`, `execOk c`
whether `babel-node` exits 0 on it, and `unlinkOk` whether deleting an
existing file succeeds (`fs.unlinkSync` on a missing file always
throws). -/
structure Env where
  extractCode : String → Option String
  writeOk : Bool
  checkOk : String → Bool
  execOk : String → Bool
  unlinkOk : Bool

/-- Observable I/O events of one invocation: a document read by the
extractor, a successful write of the generated file, a child process
spawned with a full shell command string, and an attempted deletion. -/
inductive Event where
  | extractDoc (path : String)
  | writeFile (path : String) (content : String)
  | spawn (cmd : String)
  | unlinkFile (path : String)
deriving DecidableEq, Repr

/-- The step whose failure rejected the promise chain. -/
inductive Err where
  | extractErr
  | writeErr
  | checkErr
  | execErr
  | unlinkErr
deriving DecidableEq, Repr

/-- Final settlement of the invocation's promise chain.  A `rejected`
settlement is an unhandled rejection: no further handler exists. -/
inductive Outcome where
  | ok
  | rejected (e : Err)
deriving DecidableEq, Repr

/-- Result of one invocation: the I/O trace, the final filesystem, and
the chain's final settlement. -/
structure RunResult where
  trace : List Event
  fs : FS
  settled : Outcome

/-- JavaScript coercion of `process.argv[2]` inside
`process.argv[2] + '.md'`: a missing argument is `undefined`, and
string concatenation turns it into the text `"undefined"`. -/
def jsArg : Option String → String
  | some s => s
  | none => "undefined"

/-- The JS variable `module`: `process.argv[2] + '.md'`. -/
def modulePath (arg : Option String) : String := jsArg arg ++ ".md"

/-- The JS variable `output`: `module + '.js'`. -/
def outputPath (arg : Option String) : String := modulePath arg ++ ".js"

/-- One `fs.unlinkSync` call: succeeds (returning the new filesystem)
iff the file exists and deletion is permitted; otherwise it throws. -/
def unlinkStep (env : Env) (fs : FS) (p : String) : Option FS :=
  if (fs p).isSome && env.unlinkOk then some (fs.update p none) else none

/-- What `literatejs.extract(module)` settles to: the code extracted
from the document's content, or `none` when the document is missing or
yields no code. -/
def extractedOf (env : Env) (fs : FS) (arg : Option String) : Option String :=
  (fs (modulePath arg)).bind env.extractCode

/-- The basic runner variant of `run.js`:
`literatejs.extract(module).then(write).then(execSync babel-node).then(unlinkSync)`
with no `catch`: any rejection skips the remaining steps and is left
unhandled. -/
def main1 (env : Env) (fs : FS) (arg : Option String) : RunResult :=
  match extractedOf env fs arg with
  | none => ⟨[Event.extractDoc (modulePath arg)], fs, Outcome.rejected Err.extractErr⟩
  | some code =>
    if env.writeOk then
      let fs1 := fs.update (outputPath arg) (some code)
      let tr := [Event.extractDoc (modulePath arg),
                 Event.writeFile (outputPath arg) code,
                 Event.spawn ("babel-node " ++ outputPath arg)]
      if env.execOk code then
        match unlinkStep env fs1 (outputPath arg) with
        | some fs2 => ⟨tr ++ [Event.unlinkFile (outputPath arg)], fs2, Outcome.ok⟩
        | none => ⟨tr ++ [Event.unlinkFile (outputPath arg)], fs1,
                   Outcome.rejected Err.unlinkErr⟩
      else
        ⟨tr, fs1, Outcome.rejected Err.execErr⟩
    else
      ⟨[Event.extractDoc (modulePath arg)], fs, Outcome.rejected Err.writeErr⟩

/-- The `catch` handler of the second variant: `fs.unlinkSync(output)`.
If the deletion succeeds the rejection is swallowed and the chain
fulfills; if it throws, the chain is left rejected with the cleanup
error. -/
def catchCleanup (env : Env) (fs : FS) (output : String) (tr : List Event) : RunResult :=
  match unlinkStep env fs output with
  | some fs2 => ⟨tr ++ [Event.unlinkFile output], fs2, Outcome.ok⟩
  | none => ⟨tr ++ [Event.unlinkFile output], fs, Outcome.rejected Err.unlinkErr⟩

/-- The checker-enabled runner variant of `run.js`:
`extract.then(write).then(execSync flow; execSync babel-node).then(unlinkSync).catch(unlinkSync)`.
A failing `flow` throws before `babel-node` is spawned; any rejection
reaches the `catch`, whose own `unlinkSync` may throw in turn. -/
def main2 (env : Env) (fs : FS) (arg : Option String) : RunResult :=
  match extractedOf env fs arg with
  | none => catchCleanup env fs (outputPath arg) [Event.extractDoc (modulePath arg)]
  | some code =>
    if env.writeOk then
      let fs1 := fs.update (outputPath arg) (some code)
      let tr0 := [Event.extractDoc (modulePath arg),
                  Event.writeFile (outputPath arg) code,
                  Event.spawn ("flow " ++ outputPath arg)]
      if env.checkOk code then
        let tr1 := tr0 ++ [Event.spawn ("babel-node " ++ outputPath arg)]
        if env.execOk code then
          match unlinkStep env fs1 (outputPath arg) with
          | some fs2 => ⟨tr1 ++ [Event.unlinkFile (outputPath arg)], fs2, Outcome.ok⟩
          | none => catchCleanup env fs1 (outputPath arg)
                      (tr1 ++ [Event.unlinkFile (outputPath arg)])
        else catchCleanup env fs1 (outputPath arg) tr1
      else catchCleanup env fs1 (outputPath arg) tr0
    else catchCleanup env fs (outputPath arg) [Event.extractDoc (modulePath arg)]

/-- Commands of the child processes spawned during a run, in order. -/
def spawnCmds (r : RunResult) : List String :=
  r.trace.filterMap fun e =>
    match e with
    | Event.spawn c => some c
    | _ => none

/-- Successful generated-file writes of a run, in order. -/
def writesOf (r : RunResult) : List (String × String) :=
  r.trace.filterMap fun e =>
    match e with
    | Event.writeFile p c => some (p, c)
    | _ => none

/-- Attempted deletions of a run, in order. -/
def unlinksOf (r : RunResult) : List String :=
  r.trace.filterMap fun e =>
    match e with
    | Event.unlinkFile p => some p
    | _ => none

/-- Document reads of a run, in order. -/
def readsOf (r : RunResult) : List String :=
  r.trace.filterMap fun e =>
    match e with
    | Event.extractDoc p => some p
    | _ => none

/-- POSIX shell word splitting of an unquoted command string, the
meaning a shell gives to the string handed to `execSync`: whitespace
separates arguments. -/
def wordsAux : List Char → List Char → List String
  | [], cur => if cur.isEmpty then [] else [⟨cur.reverse⟩]
  | c :: rest, cur =>
    if c = ' ' then
      if cur.isEmpty then wordsAux rest [] else ⟨cur.reverse⟩ :: wordsAux rest []
    else wordsAux rest (c :: cur)

/-- Split a shell command string into its argument words. -/
def shellWords (s : String) : List String := wordsAux s.data []

/-- An empty filesystem. -/
def fsEmpty : FS := fun _ => none

/-- A filesystem holding just the document `proto.md`. -/
def fs0 : FS := fun p => if p = "proto.md" then some "SRC" else none

/-- A filesystem holding a document whose name contains a space. -/
def fsSpace : FS := fun p => if p = "my doc.md" then some "SRC" else none

/-- Collaborators that all succeed; extraction appends a marker to the
document content, so the generated code is a function of the source. -/
def envOk : Env := ⟨fun s => some (s ++ "!"), true, fun _ => true, fun _ => true, true⟩

/-- Collaborators where the `flow` check fails on every file. -/
def envCheckFail : Env := ⟨fun s => some (s ++ "!"), true, fun _ => false, fun _ => true, true⟩

/-- Collaborators where the executed code exits non-zero. -/
def envExecFail : Env := ⟨fun s => some (s ++ "!"), true, fun _ => true, fun _ => false, true⟩

/-- Collaborators where the executed code exits non-zero and deleting
the generated file also fails. -/
def envExecFailNoUnlink : Env :=
  ⟨fun s => some (s ++ "!"), true, fun _ => true, fun _ => false, false⟩

/-! ### Helper lemmas -/

theorem FS.update_self (fs : FS) (p : String) (v : Option String) :
    fs.update p v p = v := by
  simp [FS.update]

theorem FS.update_ne (fs : FS) (p q : String) (v : Option String) (h : q ≠ p) :
    fs.update p v q = fs q := by
  simp [FS.update, h]

theorem modulePath_ne_outputPath (arg : Option String) :
    modulePath arg ≠ outputPath arg := by
  intro h
  have hl := congrArg String.length h
  simp [outputPath, String.length_append] at hl
  exact absurd hl (by decide)

/-- The basic variant touches no path other than the generated file. -/
theorem main1_fs_other (env : Env) (fs : FS) (arg : Option String) (p : String)
    (hp : p ≠ outputPath arg) : (main1 env fs arg).fs p = fs p := by
  unfold main1
  cases hx : extractedOf env fs arg with
  | none => rfl
  | some code =>
    by_cases hw : env.writeOk
    · simp only [hw, if_true]
      by_cases he : env.execOk code
      · simp only [he, if_true]
        cases hu : unlinkStep env (fs.update (outputPath arg) (some code)) (outputPath arg) with
        | some fs2 =>
          have : fs2 = (fs.update (outputPath arg) (some code)).update (outputPath arg) none := by
            unfold unlinkStep at hu
            by_cases hc : ((fs.update (outputPath arg) (some code)) (outputPath arg)).isSome
                    && env.unlinkOk
            · simp [hc] at hu; exact hu.symm
            · simp [hc] at hu
          simp [this, FS.update_ne _ _ _ _ hp]
        | none => simp [FS.update_ne _ _ _ _ hp]
      · simp [he, FS.update_ne _ _ _ _ hp]
    · simp [hw]

/-- The `catch` handler touches no path other than the generated file. -/
theorem catchCleanup_fs_other (env : Env) (fs : FS) (output : String)
    (tr : List Event) (p : String) (hp : p ≠ output) :
    (catchCleanup env fs output tr).fs p = fs p := by
  unfold catchCleanup
  cases hu : unlinkStep env fs output with
  | some fs2 =>
    have : fs2 = fs.update output none := by
      unfold unlinkStep at hu
      by_cases hc : (fs output).isSome && env.unlinkOk
      · simp [hc] at hu; exact hu.symm
      · simp [hc] at hu
    simp [this, FS.update_ne _ _ _ _ hp]
  | none => rfl

/-- The checker variant touches no path other than the generated file. -/
theorem main2_fs_other (env : Env) (fs : FS) (arg : Option String) (p : String)
    (hp : p ≠ outputPath arg) : (main2 env fs arg).fs p = fs p := by
  unfold main2
  cases hx : extractedOf env fs arg with
  | none => exact catchCleanup_fs_other env fs (outputPath arg) _ p hp
  | some code =>
    by_cases hw : env.writeOk
    · simp only [hw, if_true]
      by_cases hc : env.checkOk code
      · simp only [hc, if_true]
        by_cases he : env.execOk code
        · simp only [he, if_true]
          cases hu : unlinkStep env (fs.update (outputPath arg) (some code)) (outputPath arg) with
          | some fs2 =>
            have : fs2 = (fs.update (outputPath arg) (some code)).update (outputPath arg) none := by
              unfold unlinkStep at hu
              by_cases hb : ((fs.update (outputPath arg) (some code)) (outputPath arg)).isSome
                      && env.unlinkOk
              · simp [hb] at hu; exact hu.symm
              · simp [hb] at hu
            simp [this, FS.update_ne _ _ _ _ hp]
          | none =>
            simp only [hu]
            rw [catchCleanup_fs_other env _ (outputPath arg) _ p hp]
            exact FS.update_ne _ _ _ _ hp
        · simp only [he, Bool.false_eq_true, if_false]
          rw [catchCleanup_fs_other env _ (outputPath arg) _ p hp]
          exact FS.update_ne _ _ _ _ hp
      · simp only [hc, Bool.false_eq_true, if_false]
        rw [catchCleanup_fs_other env _ (outputPath arg) _ p hp]
        exact FS.update_ne _ _ _ _ hp
    · simp only [hw, Bool.false_eq_true, if_false]
      exact catchCleanup_fs_other env fs (outputPath arg) _ p hp

/-- The writes of the basic variant are a function of the extraction
result and the writer's health alone. -/
theorem writesOf_main1 (env : Env) (fs : FS) (arg : Option String) :
    writesOf (main1 env fs arg) =
      match extractedOf env fs arg, env.writeOk with
      | some code, true => [(outputPath arg, code)]
      | _, _ => [] := by
  unfold main1
  cases hx : extractedOf env fs arg with
  | none => simp [writesOf]
  | some code =>
    by_cases hw : env.writeOk
    · simp only [hw, if_true]
      by_cases he : env.execOk code
      · simp only [he, if_true]
        cases hu : unlinkStep env (fs.update (outputPath arg) (some code)) (outputPath arg) with
        | some fs2 => simp [writesOf]
        | none => simp [writesOf]
      · simp [he, writesOf]
    · simp [hw, writesOf]

theorem writesOf_catchCleanup (env : Env) (fs : FS) (output : String) (tr : List Event) :
    writesOf (catchCleanup env fs output tr) = writesOf (RunResult.mk tr fs Outcome.ok) := by
  unfold catchCleanup
  cases hu : unlinkStep env fs output with
  | some fs2 => simp [writesOf]
  | none => simp [writesOf]

/-- The writes of the checker variant are a function of the extraction
result and the writer's health alone. -/
theorem writesOf_main2 (env : Env) (fs : FS) (arg : Option String) :
    writesOf (main2 env fs arg) =
      match extractedOf env fs arg, env.writeOk with
      | some code, true => [(outputPath arg, code)]
      | _, _ => [] := by
  unfold main2
  cases hx : extractedOf env fs arg with
  | none => rw [writesOf_catchCleanup]; simp [writesOf]
  | some code =>
    by_cases hw : env.writeOk
    · simp only [hw, if_true]
      by_cases hc : env.checkOk code
      · simp only [hc, if_true]
        by_cases he : env.execOk code
        · simp only [he, if_true]
          cases hu : unlinkStep env (fs.update (outputPath arg) (some code)) (outputPath arg) with
          | some fs2 => simp [writesOf]
          | none => rw [writesOf_catchCleanup]; simp [writesOf]
        · simp only [he, Bool.false_eq_true, if_false]
          rw [writesOf_catchCleanup]; simp [writesOf]
      · simp only [hc, Bool.false_eq_true, if_false]
        rw [writesOf_catchCleanup]; simp [writesOf]
    · simp only [hw, Bool.false_eq_true, if_false]
      rw [writesOf_catchCleanup]; simp [writesOf]

theorem unlinkStep_exists (env : Env) (fs : FS) (p : String) (c : String)
    (h : fs p = some c) (hu : env.unlinkOk = true) :
    unlinkStep env fs p = some (fs.update p none) := by
  simp [unlinkStep, h, hu]

theorem unlinkStep_absent (env : Env) (fs : FS) (p : String) (h : fs p = none) :
    unlinkStep env fs p = none := by
  simp [unlinkStep, h]

theorem spawnCmds_catchCleanup (env : Env) (fs : FS) (output : String) (tr : List Event) :
    spawnCmds (catchCleanup env fs output tr) = spawnCmds (RunResult.mk tr fs Outcome.ok) := by
  unfold catchCleanup
  cases unlinkStep env fs output <;> simp [spawnCmds]

/-! ### Claim theorems -/

/-- C1: the spec's invariant says the generated file is removed on
every exit path, including execution failure.  The basic variant of the
runner violates this: with `proto.md` present and the executed code
exiting non-zero, `execSync` throws, the chain is rejected before the
`unlinkSync` step, no deletion is ever attempted, and `proto.md.js`
remains on disk after the runner returns. -/
theorem c1_cleanup_not_on_every_path :
    (main1 envExecFail fs0 (some "proto")).fs "proto.md.js" = some "SRC!" ∧
    (main1 envExecFail fs0 (some "proto")).settled = Outcome.rejected Err.execErr ∧
    unlinksOf (main1 envExecFail fs0 (some "proto")) = [] := by decide

/-- C2 (counterexample): with the checker enabled and failing, the
document has extractable code (the write happened) and yet the executor
is never spawned — only `flow` runs — so the claim that no step other
than the optional checker is skipped is false as stated. -/
theorem c2_executor_skipped :
    writesOf (main2 envCheckFail fs0 (some "proto")) = [("proto.md.js", "SRC!")] ∧
    spawnCmds (main2 envCheckFail fs0 (some "proto")) = ["flow proto.md.js"] := by decide

/-- C2 (amended): for every document with extractable code and a
healthy writer, the child processes spawned are exactly `babel-node`
once in the basic variant, and `flow` followed by `babel-node` (the
latter only when the check passes) in the checker variant: extractor
before checker before executor, each at most once, nothing out of
order, and only the checker's failure additionally skips the
executor. -/
theorem c2_spawn_sequence (env : Env) (fs : FS) (arg : Option String) (code : String)
    (hx : extractedOf env fs arg = some code) (hw : env.writeOk = true) :
    spawnCmds (main1 env fs arg) = ["babel-node " ++ outputPath arg] ∧
    spawnCmds (main2 env fs arg) =
      ("flow " ++ outputPath arg) ::
        (if env.checkOk code then ["babel-node " ++ outputPath arg] else []) := by
  constructor
  · unfold main1
    rw [hx]
    simp only [hw, if_true]
    by_cases he : env.execOk code
    · simp only [he, if_true]
      cases unlinkStep env (fs.update (outputPath arg) (some code)) (outputPath arg) with
      | some fs2 => simp [spawnCmds]
      | none => simp [spawnCmds]
    · simp [he, spawnCmds]
  · unfold main2
    rw [hx]
    simp only [hw, if_true]
    by_cases hc : env.checkOk code
    · simp only [hc, if_true]
      by_cases he : env.execOk code
      · simp only [he, if_true]
        cases unlinkStep env (fs.update (outputPath arg) (some code)) (outputPath arg) with
        | some fs2 => simp [spawnCmds]
        | none => rw [spawnCmds_catchCleanup]; simp [spawnCmds]
      · simp only [he, Bool.false_eq_true, if_false]
        rw [spawnCmds_catchCleanup]; simp [spawnCmds]
    · simp only [hc, Bool.false_eq_true, if_false]
      rw [spawnCmds_catchCleanup]; simp [spawnCmds]

theorem c2_spawn_sequence_witness :
    spawnCmds (main1 envOk fs0 (some "proto")) = ["babel-node " ++ outputPath (some "proto")] ∧
    spawnCmds (main2 envOk fs0 (some "proto")) =
      ("flow " ++ outputPath (some "proto")) ::
        (if envOk.checkOk "SRC!" then ["babel-node " ++ outputPath (some "proto")] else []) :=
  c2_spawn_sequence envOk fs0 (some "proto") "SRC!" (by decide) rfl

/-- C3 (counterexample): with the checker enabled and failing, the
executor is indeed skipped and the generated file deleted, but the
`catch` handler swallows the error: the chain fulfills, so the
invocation carries no failure indication — the claim's "overall outcome
is failure" is false as stated. -/
theorem c3_failure_swallowed :
    (main2 envCheckFail fs0 (some "proto")).settled = Outcome.ok ∧
    spawnCmds (main2 envCheckFail fs0 (some "proto")) = ["flow proto.md.js"] ∧
    (main2 envCheckFail fs0 (some "proto")).fs "proto.md.js" = none := by decide

/-- C3 (amended): in the checker variant, when the check exits non-zero
(and deletion works), the executor never runs and the generated file is
deleted, but the `catch` handler swallows the rejection, so the chain
settles fulfilled: the failure is visible only through the checker's
own inherited stderr, not through the runner's settlement. -/
theorem c3_check_failure (env : Env) (fs : FS) (arg : Option String) (code : String)
    (hx : extractedOf env fs arg = some code) (hw : env.writeOk = true)
    (hc : env.checkOk code = false) (hu : env.unlinkOk = true) :
    spawnCmds (main2 env fs arg) = ["flow " ++ outputPath arg] ∧
    (main2 env fs arg).fs (outputPath arg) = none ∧
    (main2 env fs arg).settled = Outcome.ok := by
  unfold main2
  rw [hx]
  simp only [hw, if_true, hc, Bool.false_eq_true, if_false]
  unfold catchCleanup
  rw [unlinkStep_exists env _ _ code (FS.update_self fs (outputPath arg) (some code)) hu]
  refine ⟨by simp [spawnCmds], ?_, rfl⟩
  exact FS.update_self _ _ _

theorem c3_check_failure_witness :
    spawnCmds (main2 envCheckFail fs0 (some "proto")) = ["flow " ++ outputPath (some "proto")] ∧
    (main2 envCheckFail fs0 (some "proto")).fs (outputPath (some "proto")) = none ∧
    (main2 envCheckFail fs0 (some "proto")).settled = Outcome.ok :=
  c3_check_failure envCheckFail fs0 (some "proto") "SRC!" (by decide) rfl rfl rfl

/-- C4 (counterexample): the executed code exits non-zero (babel-node
was spawned and failed), yet the checker variant's `catch` swallows the
error and the chain fulfills: no non-zero failure indication reaches
the invoker, so the claimed equivalence is false as stated. -/
theorem c4_no_failure_indication :
    spawnCmds (main2 envExecFail fs0 (some "proto")) =
      ["flow proto.md.js", "babel-node proto.md.js"] ∧
    (main2 envExecFail fs0 (some "proto")).settled = Outcome.ok := by decide

/-- C4 (amended): if the extracted code exits 0 (and cleanup works),
both variants settle fulfilled with the generated file removed.  If it
exits non-zero, the basic variant is left rejected with the execution
error and never attempts the deletion, leaking the generated file,
while the checker variant deletes the file but swallows the error and
settles fulfilled, propagating no failure indication. -/
theorem c4_exec_outcomes (env : Env) (fs : FS) (arg : Option String) (code : String)
    (hx : extractedOf env fs arg = some code) (hw : env.writeOk = true)
    (hc : env.checkOk code = true) (hu : env.unlinkOk = true) :
    (env.execOk code = true →
      (main1 env fs arg).settled = Outcome.ok ∧
      (main1 env fs arg).fs (outputPath arg) = none ∧
      (main2 env fs arg).settled = Outcome.ok ∧
      (main2 env fs arg).fs (outputPath arg) = none) ∧
    (env.execOk code = false →
      (main1 env fs arg).settled = Outcome.rejected Err.execErr ∧
      (main1 env fs arg).fs (outputPath arg) = some code ∧
      unlinksOf (main1 env fs arg) = [] ∧
      (main2 env fs arg).settled = Outcome.ok ∧
      (main2 env fs arg).fs (outputPath arg) = none) := by
  have hus := unlinkStep_exists env (fs.update (outputPath arg) (some code)) (outputPath arg)
    code (FS.update_self fs (outputPath arg) (some code)) hu
  constructor
  · intro he
    refine ⟨?_, ?_, ?_, ?_⟩
    · unfold main1; rw [hx]; simp only [hw, if_true, he, if_true]; rw [hus]
    · unfold main1; rw [hx]; simp only [hw, if_true, he, if_true]; rw [hus]
      exact FS.update_self _ _ _
    · unfold main2; rw [hx]; simp only [hw, if_true, hc, if_true, he, if_true]; rw [hus]
    · unfold main2; rw [hx]; simp only [hw, if_true, hc, if_true, he, if_true]; rw [hus]
      exact FS.update_self _ _ _
  · intro he
    refine ⟨?_, ?_, ?_, ?_, ?_⟩
    · unfold main1; rw [hx]; simp only [hw, if_true, he, Bool.false_eq_true, if_false]
    · unfold main1; rw [hx]; simp only [hw, if_true, he, Bool.false_eq_true, if_false]
      exact FS.update_self _ _ _
    · unfold main1; rw [hx]; simp only [hw, if_true, he, Bool.false_eq_true, if_false]
      simp [unlinksOf]
    · unfold main2; rw [hx]; simp only [hw, if_true, hc, if_true, he, Bool.false_eq_true, if_false]
      unfold catchCleanup; rw [hus]
    · unfold main2; rw [hx]; simp only [hw, if_true, hc, if_true, he, Bool.false_eq_true, if_false]
      unfold catchCleanup; rw [hus]
      exact FS.update_self _ _ _

theorem c4_exec_outcomes_witness :
    envOk.execOk "SRC!" = true ∧
    (main1 envOk fs0 (some "proto")).settled = Outcome.ok ∧
    (main1 envOk fs0 (some "proto")).fs (outputPath (some "proto")) = none :=
  have h := c4_exec_outcomes envOk fs0 (some "proto") "SRC!" (by decide) rfl rfl rfl
  ⟨rfl, (h.1 rfl).1, (h.1 rfl).2.1⟩

/-- C5 (counterexample): the executed code fails (the meaningful
error), and the `catch` handler's own `unlinkSync` also fails; the
handler throws, so the chain ends rejected with the cleanup error as an
unhandled rejection — the cleanup failure escapes and stands in place
of the execution error, contrary to the claim. -/
theorem c5_cleanup_error_masks :
    spawnCmds (main2 envExecFailNoUnlink fs0 (some "proto")) =
      ["flow proto.md.js", "babel-node proto.md.js"] ∧
    (main2 envExecFailNoUnlink fs0 (some "proto")).settled =
      Outcome.rejected Err.unlinkErr := by decide

/-- C5 (amended): in the checker variant, an earlier error is swallowed
by the `catch` handler; when the deletion inside the `catch` itself
fails, the handler throws, leaving the chain rejected with the cleanup
error as an unhandled rejection: the cleanup failure is not absorbed,
and the chain's terminal reason is the cleanup error rather than the
earlier, more meaningful one. -/
theorem c5_cleanup_error_unhandled (env : Env) (fs : FS) (arg : Option String) (code : String)
    (hx : extractedOf env fs arg = some code) (hw : env.writeOk = true)
    (hc : env.checkOk code = true) (he : env.execOk code = false)
    (hu : env.unlinkOk = false) :
    spawnCmds (main2 env fs arg) =
      ["flow " ++ outputPath arg, "babel-node " ++ outputPath arg] ∧
    (main2 env fs arg).settled = Outcome.rejected Err.unlinkErr := by
  have hun : unlinkStep env (fs.update (outputPath arg) (some code)) (outputPath arg) = none := by
    simp [unlinkStep, hu]
  unfold main2
  rw [hx]
  simp only [hw, if_true, hc, if_true, he, Bool.false_eq_true, if_false]
  unfold catchCleanup
  rw [hun]
  exact ⟨by simp [spawnCmds], rfl⟩

theorem c5_cleanup_error_unhandled_witness :
    spawnCmds (main2 envExecFailNoUnlink fs0 (some "proto")) =
      ["flow " ++ outputPath (some "proto"), "babel-node " ++ outputPath (some "proto")] ∧
    (main2 envExecFailNoUnlink fs0 (some "proto")).settled = Outcome.rejected Err.unlinkErr :=
  c5_cleanup_error_unhandled envExecFailNoUnlink fs0 (some "proto") "SRC!" (by decide)
    rfl rfl rfl rfl

/-- C6: when extraction fails, both variants perform no write at all:
the basic variant leaves the filesystem untouched, and the checker
variant at most attempts the deletion in its `catch`, so no path ever
gains a file — the generated file is never created. -/
theorem c6_extract_fail_no_file (env : Env) (fs : FS) (arg : Option String)
    (hx : extractedOf env fs arg = none) :
    writesOf (main1 env fs arg) = [] ∧
    writesOf (main2 env fs arg) = [] ∧
    (∀ p, (main1 env fs arg).fs p = fs p) ∧
    (∀ p, (main2 env fs arg).fs p = fs p ∨ (main2 env fs arg).fs p = none) := by
  refine ⟨?_, ?_, ?_, ?_⟩
  · rw [writesOf_main1, hx]
  · rw [writesOf_main2, hx]
  · intro p
    unfold main1; rw [hx]
  · intro p
    unfold main2; rw [hx]
    unfold catchCleanup
    cases hu : unlinkStep env fs (outputPath arg) with
    | some fs2 =>
      have h2 : fs2 = fs.update (outputPath arg) none := by
        unfold unlinkStep at hu
        by_cases hb : (fs (outputPath arg)).isSome && env.unlinkOk
        · simp [hb] at hu; exact hu.symm
        · simp [hb] at hu
      by_cases hp : p = outputPath arg
      · right; simp [h2, hp, FS.update_self]
      · left; simp [h2, FS.update_ne _ _ _ _ hp]
    | none => left; rfl

theorem c6_extract_fail_no_file_witness :
    writesOf (main1 envOk fsEmpty (some "ghost")) = [] ∧
    writesOf (main2 envOk fsEmpty (some "ghost")) = [] ∧
    (main1 envOk fsEmpty (some "ghost")).fs "ghost.md.js" = fsEmpty "ghost.md.js" :=
  have h := c6_extract_fail_no_file envOk fsEmpty (some "ghost") (by decide)
  ⟨h.1, h.2.1, h.2.2.1 "ghost.md.js"⟩

/-- C7 (counterexample): with the document-name argument missing, the
runner does not fail fast: JavaScript coerces the missing argument to
the text `undefined`, and the basic variant reads `undefined.md` — an
I/O operation — while the checker variant additionally attempts to
delete `undefined.md.js`, contrary to the claim that no file is read or
deleted before a usage error is raised. -/
theorem c7_io_before_validation :
    readsOf (main1 envOk fsEmpty none) = ["undefined.md"] ∧
    (main1 envOk fsEmpty none).trace ≠ [] ∧
    unlinksOf (main2 envOk fsEmpty none) = ["undefined.md.js"] := by decide

/-- C7 (amended): the runner performs no argument validation: a missing
argument becomes the literal name `undefined`, and the runner attempts
to read `undefined.md`.  When no such document exists, extraction
fails, so no file is written and no child process is spawned; the
checker variant's `catch` additionally attempts to delete
`undefined.md.js`. -/
theorem c7_missing_arg (env : Env) (fs : FS) (h : fs "undefined.md" = none) :
    (main1 env fs none).trace = [Event.extractDoc "undefined.md"] ∧
    (main1 env fs none).settled = Outcome.rejected Err.extractErr ∧
    spawnCmds (main1 env fs none) = [] ∧
    (main2 env fs none).trace =
      [Event.extractDoc "undefined.md", Event.unlinkFile "undefined.md.js"] := by
  have hm : modulePath none = "undefined.md" := by decide
  have ho : outputPath none = "undefined.md.js" := by decide
  have hx : extractedOf env fs none = none := by
    unfold extractedOf
    rw [hm, h]
    rfl
  refine ⟨?_, ?_, ?_, ?_⟩
  · unfold main1; rw [hx, hm]
  · unfold main1; rw [hx]
  · unfold main1; rw [hx]; simp [spawnCmds]
  · unfold main2; rw [hx]
    unfold catchCleanup
    cases unlinkStep env fs (outputPath none) with
    | some fs2 => simp [hm, ho]
    | none => simp [hm, ho]

theorem c7_missing_arg_witness :
    fsEmpty "undefined.md" = none ∧
    (main1 envOk fsEmpty none).trace = [Event.extractDoc "undefined.md"] ∧
    (main1 envOk fsEmpty none).settled = Outcome.rejected Err.extractErr :=
  have h := c7_missing_arg envOk fsEmpty rfl
  ⟨rfl, h.1, h.2.1⟩

/-- C8: the source document path is the name plus the document
extension and the generated path is the source path plus the code
extension: for the name `proto` these are `proto.md` and `proto.md.js`,
and on a successful run the basic variant reads `proto.md`, writes
`proto.md.js`, executes it with `babel-node`, deletes it, and leaves no
`proto.md.js` on disk. -/
theorem c8_proto_paths (env : Env) (fs : FS) (code : String)
    (hx : (fs "proto.md").bind env.extractCode = some code)
    (hw : env.writeOk = true) (he : env.execOk code = true) (hu : env.unlinkOk = true) :
    modulePath (some "proto") = "proto.md" ∧
    outputPath (some "proto") = "proto.md.js" ∧
    (main1 env fs (some "proto")).trace =
      [Event.extractDoc "proto.md", Event.writeFile "proto.md.js" code,
       Event.spawn "babel-node proto.md.js", Event.unlinkFile "proto.md.js"] ∧
    (main1 env fs (some "proto")).fs "proto.md.js" = none := by
  have hm : modulePath (some "proto") = "proto.md" := by decide
  have ho : outputPath (some "proto") = "proto.md.js" := by decide
  have hx' : extractedOf env fs (some "proto") = some code := by
    unfold extractedOf
    rw [hm]
    exact hx
  have hus := unlinkStep_exists env (fs.update (outputPath (some "proto")) (some code))
    (outputPath (some "proto")) code
    (FS.update_self fs (outputPath (some "proto")) (some code)) hu
  refine ⟨hm, ho, ?_, ?_⟩
  · unfold main1
    rw [hx']
    simp only [hw, if_true, he, if_true]
    rw [hus]
    simp only [hm, ho]
    rfl
  · unfold main1
    rw [hx']
    simp only [hw, if_true, he, if_true]
    rw [hus]
    simp [FS.update, ho]

theorem c8_proto_paths_witness :
    (fs0 "proto.md").bind envOk.extractCode = some "SRC!" ∧
    (main1 envOk fs0 (some "proto")).trace =
      [Event.extractDoc "proto.md", Event.writeFile "proto.md.js" "SRC!",
       Event.spawn "babel-node proto.md.js", Event.unlinkFile "proto.md.js"] ∧
    (main1 envOk fs0 (some "proto")).fs "proto.md.js" = none :=
  have h := c8_proto_paths envOk fs0 "SRC!" (by decide) rfl rfl rfl
  ⟨by decide, h.2.2.1, h.2.2.2⟩

/-- C9: neither variant ever writes to the source document — only the
generated path is touched — so the document's content is the same
before and after a run, and a second invocation on the resulting
filesystem extracts the same code and writes the identical
generated-file content: extraction is a deterministic function of the
unchanged source document. -/
theorem c9_deterministic_reruns (env : Env) (fs : FS) (name : String) :
    (main1 env fs (some name)).fs (modulePath (some name)) = fs (modulePath (some name)) ∧
    writesOf (main1 env (main1 env fs (some name)).fs (some name)) =
      writesOf (main1 env fs (some name)) ∧
    (main2 env fs (some name)).fs (modulePath (some name)) = fs (modulePath (some name)) ∧
    writesOf (main2 env (main2 env fs (some name)).fs (some name)) =
      writesOf (main2 env fs (some name)) := by
  have h1 := main1_fs_other env fs (some name) (modulePath (some name))
    (modulePath_ne_outputPath (some name))
  have h2 := main2_fs_other env fs (some name) (modulePath (some name))
    (modulePath_ne_outputPath (some name))
  refine ⟨h1, ?_, h2, ?_⟩
  · rw [writesOf_main1, writesOf_main1]
    have hsame : extractedOf env (main1 env fs (some name)).fs (some name) =
        extractedOf env fs (some name) := by
      unfold extractedOf
      rw [h1]
    rw [hsame]
  · rw [writesOf_main2, writesOf_main2]
    have hsame : extractedOf env (main2 env fs (some name)).fs (some name) =
        extractedOf env fs (some name) := by
      unfold extractedOf
      rw [h2]
    rw [hsame]

/-- C10: the checker and executor commands are built by plain string
concatenation of the fixed prefix with the generated path and handed to
a shell; for the document name `my doc` (which contains a space), shell
word splitting cuts the command into three words, so neither `flow` nor
`babel-node` receives the generated file as a single path argument. -/
theorem c10_shell_splitting :
    spawnCmds (main1 envOk fsSpace (some "my doc")) =
      ["babel-node " ++ outputPath (some "my doc")] ∧
    outputPath (some "my doc") = "my doc.md.js" ∧
    shellWords ("babel-node " ++ outputPath (some "my doc")) =
      ["babel-node", "my", "doc.md.js"] ∧
    shellWords ("babel-node " ++ outputPath (some "my doc")) ≠
      ["babel-node", outputPath (some "my doc")] ∧
    spawnCmds (main2 envOk fsSpace (some "my doc")) =
      ["flow " ++ outputPath (some "my doc"), "babel-node " ++ outputPath (some "my doc")] ∧
    shellWords ("flow " ++ outputPath (some "my doc")) ≠
      ["flow", outputPath (some "my doc")] := by decide
